import Mathlib

/-!
Verification development for the BLE Advertisement Router
(`dbus-ble-advertisements.py`).

The Lean definitions below are a shallow embedding of the router's core:
the btmon line parser (`parse_btmon_line`), the registration directory and
its matching predicate (`has_registration_for_advertisement`), the per-device
dedup cache and routing decision (`process_advertisement`), the dispatcher
(`emit_advertisement`), the incremental registration scan
(`scan_next_service`), the heartbeat/status surface (`get_status`), and the
device-cache safety valve (`add_discovered_device`).

Python dicts are modelled as association lists (insertion order preserved,
new keys appended); Python `set`s of registration paths are modelled as
duplicate-free lists; timestamps are integers; byte strings are `List Nat`.
External effects (D-Bus traffic, logging, GLib timers) are modelled by the
data they carry: emissions and warnings are returned as lists, timer ticks
are explicit function applications.
-/

/-! ## Generic list helpers (Python `in`, substring, dict operations) -/

/-- Boolean test that `n` is an initial segment of `l` (used for substring
search, mirroring Python regex/`str` scanning). -/
def startsWithChars : List Char → List Char → Bool
  | [], _ => true
  | _ :: _, [] => false
  | a :: as, b :: bs => a == b && startsWithChars as bs

/-- Python `needle in haystack` on strings: `n` occurs contiguously in `l`. -/
def containsChars (n : List Char) : List Char → Bool
  | [] => n.isEmpty
  | c :: rest => startsWithChars n (c :: rest) || containsChars n rest

/-- Membership of a string in a list of strings (Python `in` on dict/set/list). -/
def mem_str (x : String) (l : List String) : Bool :=
  l.any (fun q => decide (q = x))

/-- Dict lookup on an association list (Python `d.get(k)` / `d[k]`). -/
def alistLookup [DecidableEq κ] (l : List (κ × α)) (k : κ) : Option α :=
  (l.find? (fun p => decide (p.1 = k))).map (·.2)

/-- Dict key-membership (Python `k in d`). -/
def alistContains [DecidableEq κ] (l : List (κ × α)) (k : κ) : Bool :=
  l.any (fun p => decide (p.1 = k))

/-- Dict assignment `d[k] = v`: replace in place if the key exists, else
append (Python dicts preserve insertion order). -/
def alistInsert [DecidableEq κ] (l : List (κ × α)) (k : κ) (v : α) : List (κ × α) :=
  if alistContains l k then
    l.map (fun p => if p.1 = k then (k, v) else p)
  else
    l ++ [(k, v)]

/-- In-place mutation of the value stored under `k` (Python `d[k].field = x`). -/
def alistUpdate [DecidableEq κ] (l : List (κ × α)) (k : κ) (f : α → α) : List (κ × α) :=
  l.map (fun p => if p.1 = k then (p.1, f p.2) else p)

/-! ## Regex matchers used by `parse_btmon_line`

Each of the Python `re.search` calls in the source uses a fixed pattern on a
single (stripped) line.  The patterns are simple enough that leftmost-match
search with greedy repetition is captured exactly by positional scanning with
maximal character-class runs (backtracking into a greedy `\d+`/`[0-9a-f]+`
cannot help because the following literal is outside the class). -/

/-- Leftmost-position scan: try the position matcher `f` at every suffix,
left to right, as `re.search` does. -/
def scanFirst (f : List Char → Option α) : List Char → Option α
  | [] => f []
  | c :: rest =>
    match f (c :: rest) with
    | some v => some v
    | none => scanFirst f rest

/-- Numeric value of a run of decimal digits (regex group `(\d+)`). -/
def digitsVal (ds : List Char) : Nat :=
  ds.foldl (fun n c => n * 10 + (c.toNat - 48)) 0

/-- Character class `[0-9A-F:]` of the MAC-address pattern. -/
def macClassChar (c : Char) : Bool :=
  c.isDigit || (decide ('A' ≤ c) && decide (c ≤ 'F')) || c == ':'

/-- Character class `[0-9a-f]` of the manufacturer-data pattern. -/
def lowerHexChar (c : Char) : Bool :=
  c.isDigit || (decide ('a' ≤ c) && decide (c ≤ 'f'))

/-- Position matcher for `\[hci(\d+)\]`: literal `[hci`, one or more digits,
then `]`. -/
def hciAt (l : List Char) : Option Nat :=
  if startsWithChars ['[', 'h', 'c', 'i'] l then
    let rest := l.drop 4
    let ds := rest.takeWhile Char.isDigit
    let after := rest.dropWhile Char.isDigit
    if ds.isEmpty then none
    else if after.head? = some ']' then some (digitsVal ds) else none
  else none

/-- Search for `\[hci(\d+)\]` anywhere in the line (source line 1173). -/
def findHci (l : List Char) : Option Nat :=
  scanFirst hciAt l

/-- Position matcher for `(?:LE )?Address: ([0-9A-F:]{17})`.  The optional
`LE ` prefix does not affect whether a match exists nor the captured group,
so the matcher keys on `Address: ` followed by exactly 17 class characters. -/
def addressAt (l : List Char) : Option (List Char) :=
  if startsWithChars "Address: ".data l then
    let m := (l.drop 9).take 17
    if m.length = 17 && m.all macClassChar then some m else none
  else none

/-- Search for the address marker (source line 1178). -/
def findAddress (l : List Char) : Option (List Char) :=
  scanFirst addressAt l

/-- Position matcher for `Name(?: \(complete\))?: (.+)`: the regex engine
prefers the alternative containing ` (complete)` at each position; `(.+)`
greedily captures the whole remainder of the line. -/
def nameAt (l : List Char) : Option (List Char) :=
  if startsWithChars "Name (complete): ".data l then
    let rest := l.drop 17
    if rest.isEmpty then none else some rest
  else if startsWithChars "Name: ".data l then
    let rest := l.drop 6
    if rest.isEmpty then none else some rest
  else none

/-- Search for the device-name marker (source line 1188). -/
def findName (l : List Char) : Option (List Char) :=
  scanFirst nameAt l

/-- Position matcher for `RSSI: (-?\d+)`. -/
def rssiAt (l : List Char) : Option Int :=
  if startsWithChars "RSSI: ".data l then
    let rest := l.drop 6
    match rest with
    | '-' :: more =>
      let ds := more.takeWhile Char.isDigit
      if ds.isEmpty then none else some (-(digitsVal ds : Int))
    | _ =>
      let ds := rest.takeWhile Char.isDigit
      if ds.isEmpty then none else some (digitsVal ds : Int)
  else none

/-- Search for the RSSI marker (source line 1198). -/
def findRssi (l : List Char) : Option Int :=
  scanFirst rssiAt l

/-- Position matcher for ` \((\d+)\)`: a space, `(`, digits, `)`. -/
def parenAt (l : List Char) : Option Nat :=
  if startsWithChars [' ', '('] l then
    let rest := l.drop 2
    let ds := rest.takeWhile Char.isDigit
    let after := rest.dropWhile Char.isDigit
    if ds.isEmpty then none
    else if after.head? = some ')' then some (digitsVal ds) else none
  else none

/-- Last occurrence of ` \((\d+)\)` in `l`: the greedy `.*` of the company
pattern makes the capture the rightmost parenthesised number. -/
def lastParen : List Char → Option Nat
  | [] => none
  | c :: rest =>
    match lastParen rest with
    | some n => some n
    | none => parenAt (c :: rest)

/-- Position matcher for `Company: .* \((\d+)\)`. -/
def companyAt (l : List Char) : Option Nat :=
  if startsWithChars "Company: ".data l then lastParen (l.drop 9) else none

/-- Search for the manufacturer-company marker (source line 1204). -/
def findCompany (l : List Char) : Option Nat :=
  scanFirst companyAt l

/-- Position matcher for `Data: ([0-9a-f]+)`: greedy maximal run of
lowercase-hex characters after the literal. -/
def dataAt (l : List Char) : Option (List Char) :=
  if startsWithChars "Data: ".data l then
    let ds := (l.drop 6).takeWhile lowerHexChar
    if ds.isEmpty then none else some ds
  else none

/-- Search for the manufacturer-data marker (source line 1211). -/
def findData (l : List Char) : Option (List Char) :=
  scanFirst dataAt l

/-- Python `str.strip()`: drop whitespace from both ends. -/
def stripChars (l : List Char) : List Char :=
  ((l.dropWhile Char.isWhitespace).reverse.dropWhile Char.isWhitespace).reverse

/-! ## Event parser state machine (`parse_btmon_line`, source lines 1167-1225) -/

/-- Partial-record state of the btmon parser: the five `current_*` fields of
`BLEAdvertisementRouter`. -/
structure ParserState where
  current_mac : Option String
  current_name : Option String
  current_mfg_id : Option Nat
  current_rssi : Option Int
  current_interface : Option String
deriving DecidableEq

/-- A complete raw advertisement record, exactly the arguments the parser
passes to `process_advertisement`: MAC, manufacturer id, still-undecoded hex
payload, RSSI (defaulted to 0), interface (defaulted to `hci0`). -/
structure RawAdvertisement where
  mac : String
  mfg_id : Nat
  hex_data : List Char
  rssi : Int
  interface : String
deriving DecidableEq

/-- Python truthiness of `self.current_mac`: not `None` and not empty. -/
def mac_truthy : Option String → Bool
  | some m => !(m = "")
  | none => false

/-- The interface-marker step: `re.search(r'\[hci(\d+)\]', line)` updates
`current_interface` without returning (source lines 1173-1175). -/
def apply_hci (st : ParserState) (l : List Char) : ParserState :=
  match findHci l with
  | some n => { st with current_interface := some ("hci" ++ Nat.repr n) }
  | none => st

/-- Tail of the parser after the address and name branches: RSSI marker,
company marker, then the payload-data branch (source lines 1198-1225). -/
def parse_rest (st : ParserState) (l : List Char) : ParserState × Option RawAdvertisement :=
  match findRssi l with
  | some r => ({ st with current_rssi := some r }, none)
  | none =>
    match findCompany l with
    | some g => ({ st with current_mfg_id := some g }, none)
    | none =>
      if mac_truthy st.current_mac && st.current_mfg_id.isSome then
        match findData l with
        | some hex =>
          (⟨none, st.current_name, none, none, none⟩,
           some ⟨st.current_mac.getD "", st.current_mfg_id.getD 0, hex,
                 st.current_rssi.getD 0, st.current_interface.getD "hci0"⟩)
        | none => (st, none)
      else (st, none)

/-- One step of the btmon line parser on an already-stripped line.  Mirrors
the control flow of `parse_btmon_line`: the interface marker never returns;
the address marker resets name/mfg/rssi (keeping the interface) and returns;
the name marker applies only when a MAC is pending (falling through
otherwise); RSSI and company markers return; the payload-data branch fires
only when both MAC and manufacturer id are set, emits the raw record and
resets `current_mac`, `current_mfg_id`, `current_rssi` and
`current_interface` — but not `current_name`.  The name branch's side effect
on the router's device-name dictionary is modelled at the pipeline level. -/
def parse_btmon_chars (st : ParserState) (l : List Char) : ParserState × Option RawAdvertisement :=
  let st1 := apply_hci st l
  match findAddress l with
  | some mac =>
    ({ st1 with current_mac := some (String.mk mac), current_name := none,
                current_mfg_id := none, current_rssi := none }, none)
  | none =>
    match findName l with
    | some nm =>
      if mac_truthy st1.current_mac then
        ({ st1 with current_name := some (String.mk (stripChars nm)) }, none)
      else parse_rest st1 l
    | none => parse_rest st1 l

/-- `parse_btmon_line` on a raw line: strip, then run the state machine. -/
def parse_btmon_line (st : ParserState) (line : String) : ParserState × Option RawAdvertisement :=
  parse_btmon_chars st (stripChars line.data)

/-- Value of a single hex digit, as `bytes.fromhex` accepts (both cases). -/
def hexVal (c : Char) : Option Nat :=
  if c.isDigit then some (c.toNat - 48)
  else if decide ('a' ≤ c) && decide (c ≤ 'f') then some (c.toNat - 87)
  else if decide ('A' ≤ c) && decide (c ≤ 'F') then some (c.toNat - 55)
  else none

/-- Python `bytes.fromhex` on a separator-free string: consumes hex digits in
pairs; fails (raises `ValueError`) on an odd-length string or a non-hex
character.  The strings reaching it here are regex-matched `[0-9a-f]+`, so
the only reachable failure is odd length. -/
def hexDecode : List Char → Option (List Nat)
  | [] => some []
  | [_] => none
  | a :: b :: rest =>
    match hexVal a, hexVal b, hexDecode rest with
    | some x, some y, some tl => some ((x * 16 + y) :: tl)
    | _, _, _ => none

/-! ## Router state

The mutable state of `BLEAdvertisementRouter` that the routing engine reads
and writes: the four registration dictionaries, the emitter table, the
once-per-channel missing-emitter log, the per-device dedup cache, the
device-name cache, the two cached interval settings, and the two D-Bus-held
inputs the hot path consults (the discovery toggle state and the `State`
values of already-created per-device switches). -/

/-- Per-MAC dedup cache entry (`self.discovered_devices[relay_id]`,
source lines 316-323): routing enable bit, last routed payload, last route
time, last log time. -/
structure CacheEntry where
  route : Bool
  previous : Option (List Nat)
  timestamp : Int
  last_log_time : Int
deriving DecidableEq

/-- The router's mutable state (subset relevant to the routing engine). -/
structure RouterState where
  mfg_registrations : List (Nat × List String)
  mac_registrations : List (String × List String)
  pid_registrations : List ((Nat × Nat) × List String)
  pid_range_registrations : List ((Nat × Nat × Nat) × List String)
  emitters : List String
  missing_emitter_logged : List String
  discovered_devices : List (String × CacheEntry)
  device_names : List (String × String)
  repeat_interval : Int
  log_interval : Int
  discovery_state : Int
  dbus_switch_states : List (String × Int)
deriving DecidableEq

/-- Relay identifier of a MAC: `mac.replace(':', '').lower()`. -/
def mac_to_relay_id (mac : String) : String :=
  String.mk ((mac.data.filter (fun c => !(c = ':'))).map Char.toLower)

/-- Product-id extraction from Victron payloads (`_extract_product_id`,
source lines 1088-1100): little-endian 16-bit value at bytes 2-3, `none` if
the payload is shorter than 4 bytes. -/
def extract_product_id (data : List Nat) : Option Nat :=
  if 4 ≤ data.length then some (data.getD 2 0 + data.getD 3 0 * 256) else none

/-- The registration-match predicate (`_has_registration_for_advertisement`,
source lines 1102-1130): exact MAC, then — only with a product id — exact
(mfg, pid) or an inclusive (mfg, min, max) range, then manufacturer-only. -/
def has_registration_for_advertisement (st : RouterState) (mac : String)
    (mfg_id : Nat) (product_id : Option Nat) : Bool :=
  if alistContains st.mac_registrations mac then true
  else
    match product_id with
    | some pid =>
      if alistContains st.pid_registrations (mfg_id, pid) then true
      else if st.pid_range_registrations.any
          (fun kv => decide (kv.1.1 = mfg_id ∧ kv.1.2.1 ≤ pid ∧ pid ≤ kv.1.2.2)) then true
      else alistContains st.mfg_registrations mfg_id
    | none => alistContains st.mfg_registrations mfg_id

/-! ## Dispatcher (`_emit_advertisement`, source lines 1297-1380) -/

/-- The registration paths the dispatcher actually signals, in emission
order: manufacturer-only paths, exact-product paths, product-range paths,
then MAC paths — each restricted to paths with a live emitter
(`if path in self.emitters`). -/
def matched_live_paths (st : RouterState) (mac : String) (mfg_id : Nat)
    (data : List Nat) : List String :=
  let product_id := extract_product_id data
  let live := fun (p : String) => mem_str p st.emitters
  let mfgPart := ((alistLookup st.mfg_registrations mfg_id).getD []).filter live
  let pidPart :=
    match product_id with
    | some pid =>
      ((alistLookup st.pid_registrations (mfg_id, pid)).getD []).filter live
      ++ (st.pid_range_registrations.filter
            (fun kv => decide (kv.1.1 = mfg_id ∧ kv.1.2.1 ≤ pid ∧ pid ≤ kv.1.2.2))).flatMap
          (fun kv => kv.2.filter live)
    | none => []
  let macPart := ((alistLookup st.mac_registrations mac).getD []).filter live
  mfgPart ++ pidPart ++ macPart

/-- The missing-emitter warning loop of the MAC branch (source lines
1346-1351): for each MAC-registered path with no live emitter, warn once and
remember it in `_missing_emitter_logged`; paths already logged are skipped.
Returns the updated logged set and the warnings issued by this call. -/
def log_missing (logged : List String) (emitters : List String) :
    List String → List String × List String
  | [] => (logged, [])
  | p :: rest =>
    if mem_str p emitters then log_missing logged emitters rest
    else if mem_str p logged then log_missing logged emitters rest
    else
      let r := log_missing (logged ++ [p]) emitters rest
      (r.1, p :: r.2)

/-- Result of one dispatch: the updated router state, the list of paths that
received the signal (its length is the `emitted_count` the source logs), and
the missing-emitter warnings issued by this call. -/
structure EmitResult where
  state : RouterState
  emitted : List String
  warnings : List String
deriving DecidableEq

/-- The dispatcher `_emit_advertisement`: signal every matching registration
path that has a live emitter (manufacturer, exact product, product range,
MAC, in that order); warn once per missing MAC-registered channel; throttle
the per-device routing log via `last_log_time` and the log-interval
setting. -/
def emit_advertisement (st : RouterState) (mac : String) (mfg_id : Nat)
    (data : List Nat) (now : Int) : EmitResult :=
  let emitted := matched_live_paths st mac mfg_id data
  let macAll := (alistLookup st.mac_registrations mac).getD []
  let lw := log_missing st.missing_emitter_logged st.emitters macAll
  let st1 := { st with missing_emitter_logged := lw.1 }
  let st2 :=
    if emitted.length > 0 then
      if st1.log_interval = 0 then st1
      else
        let relay_id := mac_to_relay_id mac
        match alistLookup st1.discovered_devices relay_id with
        | some e =>
          if st1.log_interval ≤ now - e.last_log_time then
            let dd := alistUpdate st1.discovered_devices relay_id
              (fun e2 => { e2 with last_log_time := now })
            { st1 with discovered_devices := dd }
          else st1
        | none => st1
    else st1
  ⟨st2, emitted, lw.2⟩

/-! ## Device discovery cache (`_add_discovered_device`, source lines 680-746) -/

/-- Creation of a per-device switch and cache entry.  Returns unchanged state
when discovery is off or the device is already cached.  If the switch already
exists on D-Bus (but not in the cache), the cache is seeded from the D-Bus
`State` value with no size check.  Otherwise a new switch is created
(enabled), and a safety valve clears the whole cache first when it already
holds more than 1000 entries. -/
def add_discovered_device (st : RouterState) (mac : String) (_name : String) :
    RouterState :=
  let relay_id := mac_to_relay_id mac
  if st.discovery_state = 0 then st
  else if alistContains st.discovered_devices relay_id then st
  else
    match alistLookup st.dbus_switch_states relay_id with
    | some s =>
      { st with discovered_devices :=
          alistInsert st.discovered_devices relay_id ⟨s = 1, none, 0, 0⟩ }
    | none =>
      let cache :=
        if st.discovered_devices.length > 1000 then [] else st.discovered_devices
      { st with
          dbus_switch_states := alistInsert st.dbus_switch_states relay_id 1,
          discovered_devices := alistInsert cache relay_id ⟨true, none, 0, 0⟩ }

/-! ## Routing decision (`process_advertisement`, source lines 1227-1295) -/

/-- The repeat-suppression guard (source lines 1258-1266): with a positive
repeat interval, an identical payload arriving before the interval has
elapsed is suppressed. -/
def suppress_repeat (ri : Int) (entry : CacheEntry) (data : List Nat)
    (now : Int) : Bool :=
  decide (0 < ri) && entry.previous == some data && decide (now - entry.timestamp < ri)

/-- The routed case of `process_advertisement` (source lines 1268-1272 and
1288-1294): update the cache entry's `previous` payload and `timestamp` to
the current event, then dispatch. -/
def route_and_update (st : RouterState) (relay_id : String) (mac : String)
    (mfg_id : Nat) (data : List Nat) (now : Int) : RouterState × List String :=
  let dd := alistUpdate st.discovered_devices relay_id
    (fun e => { e with previous := some data, timestamp := now })
  let st1 := { st with discovered_devices := dd }
  let r := emit_advertisement st1 mac mfg_id data now
  (r.state, r.emitted)

/-- One advertisement through the routing engine: decode the hex payload
(discard on failure), check registrations, then either the cache-hit path
(respecting the per-device enable bit and the repeat filter, updating
`previous`/`timestamp` on every route) or the first-observation path
(create the device switch and cache entry when discovery is enabled, seed
the payload and timestamp, and route).  Returns the new state and the list
of paths the event was signalled on. -/
def process_advertisement (st : RouterState) (mac : String) (mfg_id : Nat)
    (hex_data : List Char) (_rssi : Int) (_iface : String) (now : Int) :
    RouterState × List String :=
  match hexDecode hex_data with
  | none => (st, [])
  | some data =>
    let product_id := extract_product_id data
    let has_reg := has_registration_for_advertisement st mac mfg_id product_id
    if !has_reg then (st, [])
    else
      let relay_id := mac_to_relay_id mac
      match alistLookup st.discovered_devices relay_id with
      | some entry =>
        if !entry.route then (st, [])
        else if suppress_repeat st.repeat_interval entry data now then (st, [])
        else route_and_update st relay_id mac mfg_id data now
      | none =>
        if st.discovery_state = 1 && has_reg then
          let device_name := (alistLookup st.device_names mac).getD ""
          let display_name :=
            if !(device_name = "") then device_name ++ " (" ++ mac ++ ")" else mac
          let st1 := add_discovered_device st mac display_name
          if alistContains st1.discovered_devices relay_id then
            route_and_update st1 relay_id mac mfg_id data now
          else
            let r := emit_advertisement st1 mac mfg_id data now
            (r.state, r.emitted)
        else (st, [])

-- `_rssi`/`_iface` of the signal payload do not influence routing decisions,
-- so `emit_advertisement` takes only the fields it branches on.

/-! ## Registration-directory maintenance

`_parse_registrations` (source lines 1002-1086) walks introspection XML,
classifying each visited object path by the `elif` chain of substring tests
and anchored regexes.  The D-Bus tree walk itself is external I/O; the model
takes the list of visited paths as input and embeds the per-path
classification exactly. -/

/-- Exact-tail match for `(\d+)_(\d+)_(\d+)$`: the remainder must be three
nonempty digit runs separated by underscores, ending the string. -/
def rangeTail (l : List Char) : Option (Nat × Nat × Nat) :=
  let d1 := l.takeWhile Char.isDigit
  let r1 := l.dropWhile Char.isDigit
  if d1.isEmpty then none
  else match r1 with
  | '_' :: r2 =>
    let d2 := r2.takeWhile Char.isDigit
    let r3 := r2.dropWhile Char.isDigit
    if d2.isEmpty then none
    else match r3 with
    | '_' :: r4 =>
      let d3 := r4.takeWhile Char.isDigit
      let r5 := r4.dropWhile Char.isDigit
      if d3.isEmpty then none
      else if r5.isEmpty then some (digitsVal d1, digitsVal d2, digitsVal d3)
      else none
    | _ => none
  | _ => none

/-- Exact-tail match for `(\d+)_(\d+)$`. -/
def pairTail (l : List Char) : Option (Nat × Nat) :=
  let d1 := l.takeWhile Char.isDigit
  let r1 := l.dropWhile Char.isDigit
  if d1.isEmpty then none
  else match r1 with
  | '_' :: r2 =>
    let d2 := r2.takeWhile Char.isDigit
    let r3 := r2.dropWhile Char.isDigit
    if d2.isEmpty then none
    else if r3.isEmpty then some (digitsVal d1, digitsVal d2)
    else none
  | _ => none

/-- Exact-tail match for `(\d+)$`. -/
def numTail (l : List Char) : Option Nat :=
  let d1 := l.takeWhile Char.isDigit
  let r1 := l.dropWhile Char.isDigit
  if d1.isEmpty then none
  else if r1.isEmpty then some (digitsVal d1) else none

/-- Search for `re.search(marker ++ tail-pattern ++ dollar)`: leftmost
position whose suffix starts with the literal marker and whose remainder
matches the anchored tail. -/
def markerTail (marker : List Char) (tail : List Char → Option α) :
    List Char → Option α
  | [] => none
  | c :: rest =>
    if startsWithChars marker (c :: rest) then
      match tail ((c :: rest).drop marker.length) with
      | some v => some v
      | none => markerTail marker tail rest
    else markerTail marker tail rest

/-- First occurrence split (one step of Python `str.split(sep)`): the part
before the first occurrence of `m` and the part after it. -/
def splitFirst (m : List Char) : List Char → Option (List Char × List Char)
  | [] => if m.isEmpty then some ([], []) else none
  | c :: rest =>
    if startsWithChars m (c :: rest) then some ([], (c :: rest).drop m.length)
    else (splitFirst m rest).map (fun p => (c :: p.1, p.2))

/-- MAC extraction of the `/addr/` branch (source lines 1053-1070):
`path.split('/addr/')` must yield exactly two parts; underscores are removed
from the tail; a colon-free 12-character tail is grouped into colon-separated
pairs; the result is uppercased. -/
def parse_addr_mac (path : List Char) : Option String :=
  match splitFirst "/addr/".data path with
  | none => none
  | some p =>
    match splitFirst "/addr/".data p.2 with
    | some _ => none
    | none =>
      let macPart := p.2.filter (fun c => !(c = '_'))
      let mac :=
        if !(macPart.contains ':') && macPart.length = 12 then
          (List.range 6).flatMap (fun i => (macPart.drop (2 * i)).take 2 ++ [':'])
            |>.dropLast
        else macPart
      some (String.mk (mac.map Char.toUpper))

/-- Classification of one visited object path (`_parse_registrations` body):
paths outside `/ble_advertisements/` are ignored; otherwise the `elif` chain
tries product-range, exact-product, manufacturer-only, and MAC registrations,
adding the path under the parsed key (`set.add`, so no duplicates). -/
def parse_registration_path (st : RouterState) (path : String) : RouterState :=
  let l := path.data
  if containsChars "/ble_advertisements/".data l then
    if containsChars "/mfgr_product_range/".data l then
      match markerTail "/mfgr_product_range/".data rangeTail l with
      | some k =>
        let old := (alistLookup st.pid_range_registrations k).getD []
        let v := if mem_str path old then old else old ++ [path]
        { st with pid_range_registrations :=
            alistInsert st.pid_range_registrations k v }
      | none => st
    else if containsChars "/mfgr_product/".data l then
      match markerTail "/mfgr_product/".data pairTail l with
      | some k =>
        let old := (alistLookup st.pid_registrations k).getD []
        let v := if mem_str path old then old else old ++ [path]
        { st with pid_registrations := alistInsert st.pid_registrations k v }
      | none => st
    else if containsChars "/mfgr/".data l then
      match markerTail "/mfgr/".data numTail l with
      | some k =>
        let old := (alistLookup st.mfg_registrations k).getD []
        let v := if mem_str path old then old else old ++ [path]
        { st with mfg_registrations := alistInsert st.mfg_registrations k v }
      | none => st
    else if containsChars "/addr/".data l then
      match parse_addr_mac l with
      | some mac =>
        let old := (alistLookup st.mac_registrations mac).getD []
        let v := if mem_str path old then old else old ++ [path]
        { st with mac_registrations := alistInsert st.mac_registrations mac v }
      | none => st
    else st
  else st

/-- All registration paths currently held by the directory (the union
`_update_emitters` computes as `active_paths`). -/
def active_paths (st : RouterState) : List String :=
  st.mfg_registrations.flatMap (·.2)
  ++ st.mac_registrations.flatMap (·.2)
  ++ st.pid_registrations.flatMap (·.2)
  ++ st.pid_range_registrations.flatMap (·.2)

/-- `_update_emitters` (source lines 964-1000): after the call, exactly the
active registration paths have emitters — existing emitters for active paths
are kept, emitters are created for newly-active paths, and emitters for
no-longer-registered paths are removed. -/
def update_emitters (st : RouterState) : RouterState :=
  let active := active_paths st
  let kept := st.emitters.filter (fun p => mem_str p active)
  let added := (active.filter (fun p => !mem_str p st.emitters)).dedup
  { st with emitters := kept ++ added }

/-- `_on_introspect_reply` (source lines 891-906): if the root introspection
XML mentions `ble_advertisements`, parse the visited paths into the
directory, refresh the emitters, and clear the whole per-device dedup cache;
otherwise do nothing.  `visited` is the list of object paths the external
D-Bus tree walk of `_parse_registrations` reaches. -/
def on_introspect_reply (st : RouterState) (xml : String)
    (visited : List String) : RouterState :=
  if containsChars "ble_advertisements".data xml.data then
    let st1 := visited.foldl parse_registration_path st
    let st2 := update_emitters st1
    { st2 with discovered_devices := [] }
  else st

/-- One dictionary's step of `_remove_service_registrations` (source lines
919-948): drop the paths containing the service name from the entry's path
set; if that removed something and emptied the set, delete the key. -/
def remove_paths_entry (nm : List Char) (ps : List String) :
    Option (List String) :=
  if ps.any (fun p => containsChars nm p.data) then
    let kept := ps.filter (fun p => !containsChars nm p.data)
    if kept.isEmpty then none else some kept
  else some ps

/-- Apply `remove_paths_entry` across a registration dictionary. -/
def remove_from_reg_map [DecidableEq κ] (nm : List Char)
    (m : List (κ × List String)) : List (κ × List String) :=
  m.filterMap (fun kv => (remove_paths_entry nm kv.2).map (fun ps => (kv.1, ps)))

/-- `_remove_service_registrations` (source lines 916-962): purge the four
registration dictionaries of paths mentioning the disappeared service, then
— only if at least one *emitter* path mentions the service — tear those
emitters down and clear the per-device dedup cache. -/
def remove_service_registrations (st : RouterState) (service_name : String) :
    RouterState :=
  let nm := service_name.data
  let st1 := { st with
    mfg_registrations := remove_from_reg_map nm st.mfg_registrations,
    mac_registrations := remove_from_reg_map nm st.mac_registrations,
    pid_registrations := remove_from_reg_map nm st.pid_registrations,
    pid_range_registrations := remove_from_reg_map nm st.pid_range_registrations }
  let toRemove := st1.emitters.filter (fun p => containsChars nm p.data)
  if toRemove.isEmpty then st1
  else { st1 with
    emitters := st1.emitters.filter (fun p => !containsChars nm p.data),
    discovered_devices := [] }

/-! ## Discovery scheduler (`_schedule_initial_scan` / `_scan_next_service`,
source lines 775-841) -/

/-- The candidate filter of `_schedule_initial_scan`: victron services,
excluding unique bus names and the router itself. -/
def scan_candidate (s : String) : Bool :=
  startsWithChars "com.victronenergy.".data s.data
  && !startsWithChars ":".data s.data
  && !(s = "com.victronenergy.switch.ble_advertisements")

/-- `_schedule_initial_scan`: build the pending queue from the bus name list
and schedule the first tick only if the queue is nonempty.  The boolean is
whether a `GLib.timeout_add` tick was scheduled. -/
def schedule_initial_scan (service_names : List String) : List String × Bool :=
  let pending := service_names.filter scan_candidate
  (pending, !pending.isEmpty)

/-- One `_scan_next_service` tick acting on the pending queue: on an empty
queue, finish without rescheduling; otherwise pop exactly the head (the
popped service is probed asynchronously; probe errors are caught, logged and
skipped, never re-enqueued) and schedule exactly one further tick iff work
remains.  The boolean is whether another tick was scheduled (the callback
itself always returns `False`, i.e. never auto-repeats). -/
def scan_next_service : List String → List String × Bool
  | [] => ([], false)
  | _ :: rest => (rest, !rest.isEmpty)

/-- Number of ticks until the initial scan finishes, following
`scan_next_service` until it stops rescheduling. -/
def scan_ticks : List String → Nat
  | [] => 0
  | _ :: rest => scan_ticks rest + 1

/-! ## Status surface and heartbeat (source lines 84-102, 462-463, 843-847) -/

/-- `RootObject.GetStatus`: "running" while fewer than 1800 seconds have
elapsed since the stored heartbeat, "stale" from 1800 seconds on. -/
def get_status (heartbeat : Int) (now : Int) : String :=
  if now - heartbeat < 1800 then "running" else "stale"

/-- `RootObject.GetHeartbeat`: the raw stored timestamp. -/
def get_heartbeat (heartbeat : Int) : Int :=
  heartbeat

/-- `RootObject.update_heartbeat`: would store the current time.  Defined on
`RootObject`, but no caller in the source ever invokes it. -/
def root_update_heartbeat (_heartbeat : Int) (now : Int) : Int :=
  now

/-- `BLEAdvertisementRouter._update_heartbeat`, the callback the 600-second
GLib timer actually runs (source lines 843-847): its body is a TODO stub
that only logs and returns `True` to keep the timer alive — it never writes
`RootObject.heartbeat`. -/
def router_update_heartbeat (heartbeat : Int) : Int × Bool :=
  (heartbeat, true)

/-- The stored heartbeat after `n` firings of the 600-second timer. -/
def heartbeat_after_ticks : Nat → Int → Int
  | 0, h => h
  | n + 1, h => heartbeat_after_ticks n (router_update_heartbeat h).1

/-! ## Supporting lemmas about the dictionary model -/

theorem mem_str_iff (x : String) (l : List String) :
    mem_str x l = true ↔ x ∈ l := by
  simp [mem_str, List.any_eq_true]

theorem alistContains_iff [DecidableEq κ] (l : List (κ × α)) (k : κ) :
    alistContains l k = true ↔ ∃ v, (k, v) ∈ l := by
  simp only [alistContains, List.any_eq_true, decide_eq_true_eq]
  constructor
  · rintro ⟨p, hp, he⟩
    exact ⟨p.2, by simpa [← he] using hp⟩
  · rintro ⟨v, hv⟩
    exact ⟨(k, v), hv, rfl⟩

theorem alistContains_eq_false_iff [DecidableEq κ] (l : List (κ × α)) (k : κ) :
    alistContains l k = false ↔ ∀ v, (k, v) ∉ l := by
  rw [← Bool.not_eq_true, alistContains_iff]
  push_neg
  simp

theorem alistLookup_eq_none_iff [DecidableEq κ] (l : List (κ × α)) (k : κ) :
    alistLookup l k = none ↔ alistContains l k = false := by
  induction l with
  | nil => simp [alistLookup, alistContains]
  | cons p rest ih =>
    by_cases hp : p.1 = k
    · simp [alistLookup, alistContains, List.find?_cons, hp]
    · simp [alistLookup, alistContains, List.find?_cons, hp, ih]

theorem alistLookup_isSome_of_contains [DecidableEq κ] (l : List (κ × α)) (k : κ)
    (h : alistContains l k = true) : (alistLookup l k).isSome := by
  rcases Option.eq_none_or_eq_some (alistLookup l k) with hn | ⟨v, hv⟩
  · rw [alistLookup_eq_none_iff] at hn
    simp [hn] at h
  · simp [hv]

theorem alistLookup_insert_self [DecidableEq κ] (l : List (κ × α)) (k : κ) (v : α) :
    alistLookup (alistInsert l k v) k = some v := by
  unfold alistInsert
  by_cases hc : alistContains l k = true
  · simp only [hc, if_true]
    induction l with
    | nil => simp [alistContains] at hc
    | cons p rest ih =>
      by_cases hp : p.1 = k
      · simp [alistLookup, List.find?_cons, hp]
      · have hc2 : alistContains rest k = true := by
          simpa [alistContains, hp] using hc
        simpa [alistLookup, List.find?_cons, hp] using ih hc2
  · simp only [hc, Bool.false_eq_true, if_false]
    induction l with
    | nil => simp [alistLookup]
    | cons p rest ih =>
      have hp : ¬(p.1 = k) := by
        intro he
        simp [alistContains, he] at hc
      have hc2 : ¬(alistContains rest k = true) := by
        intro h2
        apply hc
        simp [alistContains] at h2 ⊢
        exact Or.inr h2
      simpa [alistLookup, List.find?_cons, hp] using ih hc2

theorem alistInsert_length_of_not_contains [DecidableEq κ] (l : List (κ × α))
    (k : κ) (v : α) (h : alistContains l k = false) :
    (alistInsert l k v).length = l.length + 1 := by
  simp [alistInsert, h]

theorem alistLookup_update_self [DecidableEq κ] (l : List (κ × α)) (k : κ)
    (f : α → α) :
    alistLookup (alistUpdate l k f) k = (alistLookup l k).map f := by
  induction l with
  | nil => simp [alistLookup, alistUpdate]
  | cons p rest ih =>
    by_cases hp : p.1 = k
    · simp [alistLookup, alistUpdate, List.find?_cons, hp]
    · simpa [alistLookup, alistUpdate, List.find?_cons, hp] using ih

theorem alistLookup_update_preserved [DecidableEq κ] (l : List (κ × α)) (k k2 : κ)
    (f : α → α) (h : ¬(k2 = k)) :
    alistLookup (alistUpdate l k f) k2 = alistLookup l k2 := by
  induction l with
  | nil => simp [alistLookup, alistUpdate]
  | cons p rest ih =>
    have hstep : alistUpdate (p :: rest) k f
        = (if p.1 = k then (p.1, f p.2) else p) :: alistUpdate rest k f := by
      simp [alistUpdate]
    rw [hstep]
    by_cases hp : p.1 = k
    · have hne : ((if p.1 = k then (p.1, f p.2) else p).1 = k2) = False := by
        simp [hp]
        exact fun he => h he.symm
      unfold alistLookup
      rw [List.find?_cons_of_neg, List.find?_cons_of_neg]
      · exact ih
      · simp [hp]
        exact fun he => h he.symm
      · simp [hne]
    · rw [if_neg hp]
      by_cases hp2 : p.1 = k2
      · unfold alistLookup
        rw [List.find?_cons_of_pos, List.find?_cons_of_pos] <;> simp [hp2]
      · unfold alistLookup
        rw [List.find?_cons_of_neg, List.find?_cons_of_neg]
        · exact ih
        · simp [hp2]
        · simp [hp2]

/-! ## Claim theorems -/

/-- C3: the registration-match predicate returns true exactly when the MAC
has an exact registration, or a product id is present and either the
(mfgId, productId) pair has an exact registration or some inclusive range
registration (mfgId, min, max) contains it, or the manufacturer has a
manufacturer-only registration; with no product id the two product-aware
checks are skipped.  Being a total function into `Bool`, it returns `false`
(and cannot raise) on any well-formed query matching no registration. -/
theorem c3_matches_iff (st : RouterState) (mac : String) (mfg : Nat)
    (pid : Option Nat) :
    has_registration_for_advertisement st mac mfg pid = true ↔
      ((∃ ps, (mac, ps) ∈ st.mac_registrations)
       ∨ (∃ p, pid = some p ∧
            ((∃ ps, ((mfg, p), ps) ∈ st.pid_registrations)
             ∨ (∃ lo hi ps, ((mfg, lo, hi), ps) ∈ st.pid_range_registrations
                  ∧ lo ≤ p ∧ p ≤ hi)))
       ∨ (∃ ps, (mfg, ps) ∈ st.mfg_registrations)) := by
  unfold has_registration_for_advertisement
  cases pid with
  | none =>
    by_cases h1 : alistContains st.mac_registrations mac = true
    · simp [h1, (alistContains_iff _ _).mp h1]
    · rw [Bool.not_eq_true] at h1
      have h1m := alistContains_eq_false_iff st.mac_registrations mac |>.mp h1
      simp only [h1, Bool.false_eq_true, if_false, alistContains_iff]
      constructor
      · intro h
        exact Or.inr (Or.inr h)
      · rintro (⟨ps, hps⟩ | ⟨p, hp, _⟩ | h)
        · exact absurd hps (h1m ps)
        · exact absurd hp (by simp)
        · exact h
  | some p =>
    by_cases h1 : alistContains st.mac_registrations mac = true
    · simp [h1, (alistContains_iff _ _).mp h1]
    · rw [Bool.not_eq_true] at h1
      have h1m := alistContains_eq_false_iff st.mac_registrations mac |>.mp h1
      simp only [h1, Bool.false_eq_true, if_false]
      by_cases h2 : alistContains st.pid_registrations (mfg, p) = true
      · obtain ⟨ps, hps⟩ := (alistContains_iff _ _).mp h2
        simp only [h2, if_true, true_iff]
        exact Or.inr (Or.inl ⟨p, rfl, Or.inl ⟨ps, hps⟩⟩)
      · rw [Bool.not_eq_true] at h2
        have h2m := alistContains_eq_false_iff st.pid_registrations (mfg, p) |>.mp h2
        simp only [h2, Bool.false_eq_true, if_false]
        by_cases h3 : st.pid_range_registrations.any
            (fun kv => decide (kv.1.1 = mfg ∧ kv.1.2.1 ≤ p ∧ p ≤ kv.1.2.2)) = true
        · simp only [h3, if_true, true_iff]
          simp only [List.any_eq_true, decide_eq_true_eq] at h3
          obtain ⟨kv, hkv, hmfg, hlo, hhi⟩ := h3
          refine Or.inr (Or.inl ⟨p, rfl, Or.inr ⟨kv.1.2.1, kv.1.2.2, kv.2, ?_, hlo, hhi⟩⟩)
          have : kv = ((mfg, kv.1.2.1, kv.1.2.2), kv.2) := by
        
            rcases kv with ⟨⟨a, b, c⟩, ps⟩
            simp at hmfg
            simp [hmfg]
          rw [← this]
          exact hkv
        · rw [Bool.not_eq_true] at h3
          simp only [h3, Bool.false_eq_true, if_false, alistContains_iff]
          constructor
          · intro h
            exact Or.inr (Or.inr h)
          · rintro (⟨ps, hps⟩ | ⟨q, hq, hrest⟩ | h)
            · exact absurd hps (h1m ps)
            · injection hq with hq
              subst hq
              rcases hrest with ⟨ps, hps⟩ | ⟨lo, hi, ps, hps, hlo, hhi⟩
              · exact absurd hps (h2m ps)
              · exfalso
                have hany : st.pid_range_registrations.any
                    (fun kv => decide (kv.1.1 = mfg ∧ kv.1.2.1 ≤ p ∧ p ≤ kv.1.2.2)) = true := by
                  simp only [List.any_eq_true, decide_eq_true_eq]
                  exact ⟨((mfg, lo, hi), ps), hps, rfl, hlo, hhi⟩
                rw [h3] at hany
                exact Bool.noConfusion hany
            · exact h

/-- C7: each initial-scan tick pops exactly one pending service (so the
queue length strictly decreases by one), schedules at most one further tick
(exactly when work remains), and the scan finishes after exactly as many
ticks as there were enqueued candidates; `_schedule_initial_scan` schedules
the first tick only when the filtered candidate queue is nonempty.  Probe
errors are swallowed inside the tick and never re-enqueue the service. -/
theorem c7_one_service_per_tick :
    (∀ q : List String, q ≠ [] →
        (scan_next_service q).1.length + 1 = q.length
        ∧ ((scan_next_service q).2 = true ↔ (scan_next_service q).1 ≠ [])
        ∧ scan_ticks q = scan_ticks (scan_next_service q).1 + 1)
    ∧ (∀ q : List String, scan_ticks q = q.length)
    ∧ (∀ names : List String,
        (schedule_initial_scan names).2 = true
          ↔ (schedule_initial_scan names).1 ≠ []) := by
  have hlen : ∀ q : List String, scan_ticks q = q.length := by
    intro q
    induction q with
    | nil => rfl
    | cons p rest ih => simp [scan_ticks, ih]
  refine ⟨?_, hlen, ?_⟩
  · intro q hq
    match q with
    | p :: rest =>
      refine ⟨by simp [scan_next_service], ?_, by simp [scan_next_service, scan_ticks]⟩
      simp [scan_next_service, List.isEmpty_iff]
  · intro names
    simp [schedule_initial_scan, List.isEmpty_iff]

/-- C7 witness: a concrete two-element queue takes exactly two ticks, the
first tick popping one service and scheduling exactly one more. -/
theorem c7_witness :
    (scan_next_service ["com.victronenergy.a", "com.victronenergy.b"]).1.length + 1 = 2
    ∧ ((scan_next_service ["com.victronenergy.a", "com.victronenergy.b"]).2 = true
        ↔ (scan_next_service ["com.victronenergy.a", "com.victronenergy.b"]).1 ≠ [])
    ∧ scan_ticks ["com.victronenergy.a", "com.victronenergy.b"] = 2 := by
  have h := c7_one_service_per_tick
  have h1 := h.1 ["com.victronenergy.a", "com.victronenergy.b"] (by simp)
  exact ⟨h1.1, h1.2.1, by simpa using h.2.1 ["com.victronenergy.a", "com.victronenergy.b"]⟩

/-- C9: `GetStatus` does report "running" exactly when less than 1800
seconds have elapsed since the stored heartbeat — but the periodic timer
callback `_update_heartbeat` is a TODO stub that never refreshes the stored
timestamp (`RootObject.update_heartbeat` exists and is never called), so a
service whose timer keeps firing still reports "stale" once 1800 seconds
have passed since startup: with the heartbeat taken at time 0 and the
600-second timer having fired three times, `GetStatus` at time 1800 returns
"stale", contradicting the claim that it never transitions to stale. -/
theorem c9_stale_despite_timer :
    (∀ h now : Int, get_status h now = "running" ↔ now - h < 1800)
    ∧ (∀ (n : Nat) (h : Int), heartbeat_after_ticks n h = h)
    ∧ (∀ h : Int, (router_update_heartbeat h).1 = h)
    ∧ (∀ h now : Int, root_update_heartbeat h now = now)
    ∧ get_status (heartbeat_after_ticks 3 0) 1800 = "stale" := by
  have hticks : ∀ (n : Nat) (h : Int), heartbeat_after_ticks n h = h := by
    intro n
    induction n with
    | zero => intro h; rfl
    | succ m ih => intro h; exact ih h
  refine ⟨?_, hticks, fun _ => rfl, fun _ _ => rfl, ?_⟩
  · intro h now
    unfold get_status
    by_cases hlt : now - h < 1800
    · simp [hlt]
    · rw [if_neg hlt]
      constructor
      · intro he
        exact absurd he (by decide)
      · intro hc
        exact absurd hc hlt
  · rw [hticks 3 0]
    decide

theorem alistLookup_update [DecidableEq κ] (l : List (κ × α)) (k k2 : κ)
    (f : α → α) :
    alistLookup (alistUpdate l k f) k2
      = if k2 = k then (alistLookup l k2).map f else alistLookup l k2 := by
  by_cases h : k2 = k
  · subst h
    simp [alistLookup_update_self]
  · simp [h, alistLookup_update_preserved _ _ _ _ h]

/-- The dispatcher's emission list is exactly the matched paths with live
emitters, in the source's emission order. -/
theorem emit_advertisement_emitted (st : RouterState) (mac : String)
    (mfg : Nat) (data : List Nat) (now : Int) :
    (emit_advertisement st mac mfg data now).emitted
      = matched_live_paths st mac mfg data := rfl

/-- Dispatch can refresh a cache entry's `last_log_time` (log throttling)
but never changes its routing fields. -/
theorem emit_advertisement_preserves_entry (st : RouterState) (mac : String)
    (mfg : Nat) (data : List Nat) (now : Int) (k : String) (e : CacheEntry)
    (h : alistLookup st.discovered_devices k = some e) :
    ∃ e2, alistLookup
        (emit_advertisement st mac mfg data now).state.discovered_devices k
        = some e2
      ∧ e2.route = e.route ∧ e2.previous = e.previous
      ∧ e2.timestamp = e.timestamp := by
  unfold emit_advertisement
  dsimp only
  split
  · split
    · exact ⟨e, h, rfl, rfl, rfl⟩
    · split
      · split
        · rw [alistLookup_update]
          by_cases hk : k = mac_to_relay_id mac
          · rw [if_pos hk, h]
            exact ⟨_, rfl, rfl, rfl, rfl⟩
          · rw [if_neg hk]
            exact ⟨e, h, rfl, rfl, rfl⟩
        · exact ⟨e, h, rfl, rfl, rfl⟩
      · exact ⟨e, h, rfl, rfl, rfl⟩
  · exact ⟨e, h, rfl, rfl, rfl⟩

/-- Routing with cache update emits exactly the matched live paths (the
cache update does not touch the registration tables or emitters). -/
theorem route_and_update_emitted (st : RouterState) (relay : String)
    (mac : String) (mfg : Nat) (data : List Nat) (now : Int) :
    (route_and_update st relay mac mfg data now).2
      = matched_live_paths st mac mfg data := rfl

/-- After routing, the cache entry under the routed relay id carries the
event's payload and timestamp (and an unchanged route bit). -/
theorem route_and_update_entry (st : RouterState) (relay : String)
    (mac : String) (mfg : Nat) (data : List Nat) (now : Int) (e : CacheEntry)
    (h : alistLookup st.discovered_devices relay = some e) :
    ∃ e2, alistLookup
        (route_and_update st relay mac mfg data now).1.discovered_devices relay
        = some e2
      ∧ e2.previous = some data ∧ e2.timestamp = now ∧ e2.route = e.route := by
  have hlook : alistLookup (alistUpdate st.discovered_devices relay (fun e2 => { e2 with previous := some data, timestamp := now })) relay = some { e with previous := some data, timestamp := now } := by
    rw [alistLookup_update_self, h]
    rfl
  obtain ⟨e2, he2, hr, hp, ht⟩ := emit_advertisement_preserves_entry { st with discovered_devices := alistUpdate st.discovered_devices relay (fun e2 => { e2 with previous := some data, timestamp := now }) } mac mfg data now relay { e with previous := some data, timestamp := now } hlook
  exact ⟨e2, he2, by rw [hp], by rw [ht], by rw [hr]⟩

/-- The suppression guard holds exactly when the interval is positive, the
payload is unchanged, and the interval has not yet elapsed. -/
theorem suppress_repeat_eq_true_iff (ri : Int) (entry : CacheEntry)
    (data : List Nat) (now : Int) :
    suppress_repeat ri entry data now = true
      ↔ (0 < ri ∧ entry.previous = some data ∧ now - entry.timestamp < ri) := by
  simp [suppress_repeat, Bool.and_eq_true, decide_eq_true_eq, and_assoc]

/-- C2: on a cache hit with routing enabled, the event is routed iff the
payload differs from the cached `previous` or the elapsed time since the
cached `timestamp` is at least the repeat interval (inclusive at the
boundary); a repeat interval of zero suppresses nothing; a suppressed event
leaves the state untouched and emits nothing; a routed event is dispatched
to the matched live paths and the cache entry's payload and route time are
updated to the event's payload and the current time. -/
theorem c2_dedup_policy (st : RouterState) (mac : String) (mfg : Nat)
    (hex : List Char) (rssi : Int) (iface : String) (now : Int)
    (data : List Nat) (entry : CacheEntry)
    (hdec : hexDecode hex = some data)
    (hreg : has_registration_for_advertisement st mac mfg
      (extract_product_id data) = true)
    (hcache : alistLookup st.discovered_devices (mac_to_relay_id mac)
      = some entry)
    (hroute : entry.route = true)
    (hri : 0 ≤ st.repeat_interval)
    (hmono : entry.timestamp ≤ now) :
    (suppress_repeat st.repeat_interval entry data now = false
      ↔ (¬(entry.previous = some data)
          ∨ st.repeat_interval ≤ now - entry.timestamp))
    ∧ (st.repeat_interval = 0
        → suppress_repeat st.repeat_interval entry data now = false)
    ∧ (suppress_repeat st.repeat_interval entry data now = true
        → process_advertisement st mac mfg hex rssi iface now = (st, []))
    ∧ (suppress_repeat st.repeat_interval entry data now = false
        → (process_advertisement st mac mfg hex rssi iface now).2
            = matched_live_paths st mac mfg data
          ∧ ∃ e2, alistLookup
                (process_advertisement st mac mfg hex rssi iface now).1.discovered_devices
                (mac_to_relay_id mac) = some e2
              ∧ e2.previous = some data ∧ e2.timestamp = now
              ∧ e2.route = entry.route) := by
  have hiff : suppress_repeat st.repeat_interval entry data now = false
      ↔ (¬(entry.previous = some data)
          ∨ st.repeat_interval ≤ now - entry.timestamp) := by
    rw [Bool.eq_false_iff, Ne, suppress_repeat_eq_true_iff]
    constructor
    · intro h
      by_cases hprev : entry.previous = some data
      · rcases Classical.em (0 < st.repeat_interval) with hpos | hnpos
        · have hc : ¬(now - entry.timestamp < st.repeat_interval) :=
            fun hc => h ⟨hpos, hprev, hc⟩
          right
          omega
        · right
          omega
      · exact Or.inl hprev
    · rintro (hprev | htime)
      · rintro ⟨_, hp, _⟩
        exact hprev hp
      · rintro ⟨hpos, _, hlt⟩
        omega
  refine ⟨hiff, ?_, ?_, ?_⟩
  · intro h0
    rw [Bool.eq_false_iff, Ne, suppress_repeat_eq_true_iff]
    rintro ⟨hpos, _, _⟩
    omega
  · intro hs
    simp only [process_advertisement, hdec, hreg, Bool.not_true,
      Bool.false_eq_true, if_false, hcache, hroute, Bool.not_false, hs, if_true]
  · intro hs
    have hres : process_advertisement st mac mfg hex rssi iface now
        = route_and_update st (mac_to_relay_id mac) mac mfg data now := by
      simp only [process_advertisement, hdec, hreg, Bool.not_true,
        Bool.false_eq_true, if_false, hcache, hroute, Bool.not_false, hs,
        if_true]
    rw [hres]
    refine ⟨route_and_update_emitted st _ mac mfg data now, ?_⟩
    exact route_and_update_entry st _ mac mfg data now entry hcache

theorem alistContains_of_lookup_some [DecidableEq κ] (l : List (κ × α))
    (k : κ) (v : α) (h : alistLookup l k = some v) :
    alistContains l k = true := by
  by_cases hc : alistContains l k = true
  · exact hc
  · rw [Bool.not_eq_true, ← alistLookup_eq_none_iff] at hc
    rw [h] at hc
    exact Option.noConfusion hc

/-- `_add_discovered_device` never touches the registration tables or the
emitter table. -/
theorem add_discovered_device_regs (st : RouterState) (mac nm : String) :
    (add_discovered_device st mac nm).mfg_registrations = st.mfg_registrations
    ∧ (add_discovered_device st mac nm).mac_registrations = st.mac_registrations
    ∧ (add_discovered_device st mac nm).pid_registrations = st.pid_registrations
    ∧ (add_discovered_device st mac nm).pid_range_registrations
        = st.pid_range_registrations
    ∧ (add_discovered_device st mac nm).emitters = st.emitters := by
  by_cases h0 : st.discovery_state = 0
  · simp [add_discovered_device, h0]
  · by_cases h1 : alistContains st.discovered_devices (mac_to_relay_id mac) = true
    · simp [add_discovered_device, h0, h1]
    · rcases hl : alistLookup st.dbus_switch_states (mac_to_relay_id mac) with _ | sv
      · simp [add_discovered_device, h0, h1, hl]
      · simp [add_discovered_device, h0, h1, hl]

/-- The matched-path computation depends only on the registration tables and
the emitter table. -/
theorem matched_live_paths_eq_of (st1 st2 : RouterState) (mac : String)
    (mfg : Nat) (data : List Nat)
    (h1 : st1.mfg_registrations = st2.mfg_registrations)
    (h2 : st1.mac_registrations = st2.mac_registrations)
    (h3 : st1.pid_registrations = st2.pid_registrations)
    (h4 : st1.pid_range_registrations = st2.pid_range_registrations)
    (h5 : st1.emitters = st2.emitters) :
    matched_live_paths st1 mac mfg data = matched_live_paths st2 mac mfg data := by
  unfold matched_live_paths
  rw [h1, h2, h3, h4, h5]

/-- With discovery on and the device not yet cached,
`_add_discovered_device` seeds a cache entry with no previous payload and a
zero timestamp (from the D-Bus switch state if the switch already exists,
enabled-by-default otherwise). -/
theorem add_discovered_device_seeds (st : RouterState) (mac nm : String)
    (hdisc : st.discovery_state = 1)
    (hmiss : alistLookup st.discovered_devices (mac_to_relay_id mac) = none) :
    ∃ e0, alistLookup (add_discovered_device st mac nm).discovered_devices
        (mac_to_relay_id mac) = some e0
      ∧ e0.previous = none ∧ e0.timestamp = 0 := by
  have hc : alistContains st.discovered_devices (mac_to_relay_id mac) = false :=
    (alistLookup_eq_none_iff _ _).mp hmiss
  unfold add_discovered_device
  rw [hdisc]
  simp only [hc, Bool.false_eq_true, if_false, one_ne_zero, if_false]
  split
  · exact ⟨_, alistLookup_insert_self _ _ _, rfl, rfl⟩
  · refine ⟨⟨true, none, 0, 0⟩, ?_, rfl, rfl⟩
    exact alistLookup_insert_self _ _ _

/-- C1 counterexample state: one manufacturer registration with a live
emitter, an empty dedup cache, and the discovery toggle OFF. -/
def c1_state : RouterState :=
  ⟨[(737, ["/ble_advertisements/orion_tr/mfgr/737"])], [], [], [],
   ["/ble_advertisements/orion_tr/mfgr/737"], [], [], [], 600, 3000, 0, []⟩

/-- C1 is false as stated: with discovery disabled, an advertisement whose
MAC has no cache entry and which matches a registration is neither routed
nor cached — `process_advertisement` returns the state unchanged and emits
on no path, where the claim demands a route and a seeded cache entry. -/
theorem c1_counterexample :
    has_registration_for_advertisement c1_state "AA:BB:CC:DD:EE:FF" 737
      (extract_product_id [1]) = true
    ∧ alistLookup c1_state.discovered_devices
        (mac_to_relay_id "AA:BB:CC:DD:EE:FF") = none
    ∧ process_advertisement c1_state "AA:BB:CC:DD:EE:FF" 737 "01".data 0 "hci0" 5
        = (c1_state, []) := by
  refine ⟨by decide, by decide, ?_⟩
  decide

/-- C1 (amended): for an advertisement whose MAC has no cache entry, which
matches at least one registration, and with discovery enabled,
`process_advertisement` routes the event to every matched registration path
with a live emitter and seeds a cache entry holding the event's payload and
timestamp. -/
theorem c1_first_observation (st : RouterState) (mac : String) (mfg : Nat)
    (hex : List Char) (rssi : Int) (iface : String) (now : Int)
    (data : List Nat)
    (hdec : hexDecode hex = some data)
    (hreg : has_registration_for_advertisement st mac mfg
      (extract_product_id data) = true)
    (hmiss : alistLookup st.discovered_devices (mac_to_relay_id mac) = none)
    (hdisc : st.discovery_state = 1) :
    (process_advertisement st mac mfg hex rssi iface now).2
      = matched_live_paths st mac mfg data
    ∧ ∃ e2, alistLookup
        (process_advertisement st mac mfg hex rssi iface now).1.discovered_devices
        (mac_to_relay_id mac) = some e2
      ∧ e2.previous = some data ∧ e2.timestamp = now := by
  have hdn : (if !(((alistLookup st.device_names mac).getD "") = "") then ((alistLookup st.device_names mac).getD "") ++ " (" ++ mac ++ ")" else mac) = (if !(((alistLookup st.device_names mac).getD "") = "") then ((alistLookup st.device_names mac).getD "") ++ " (" ++ mac ++ ")" else mac) := rfl
  obtain ⟨e0, he0, hprev0, hts0⟩ := add_discovered_device_seeds st mac
    (if !(((alistLookup st.device_names mac).getD "") = "") then ((alistLookup st.device_names mac).getD "") ++ " (" ++ mac ++ ")" else mac)
    hdisc hmiss
  have hcont : alistContains
      (add_discovered_device st mac
        (if !(((alistLookup st.device_names mac).getD "") = "") then ((alistLookup st.device_names mac).getD "") ++ " (" ++ mac ++ ")" else mac)).discovered_devices
      (mac_to_relay_id mac) = true :=
    alistContains_of_lookup_some _ _ _ he0
  have hres : process_advertisement st mac mfg hex rssi iface now
      = route_and_update
          (add_discovered_device st mac
            (if !(((alistLookup st.device_names mac).getD "") = "") then ((alistLookup st.device_names mac).getD "") ++ " (" ++ mac ++ ")" else mac))
          (mac_to_relay_id mac) mac mfg data now := by
    simp only [process_advertisement, hdec, hreg, Bool.not_true,
      Bool.false_eq_true, if_false, hmiss, hdisc, Bool.and_self, decide_eq_true_eq,
      hcont, if_true]
    simp
  rw [hres]
  obtain ⟨hr1, hr2, hr3, hr4, hr5⟩ := add_discovered_device_regs st mac
    (if !(((alistLookup st.device_names mac).getD "") = "") then ((alistLookup st.device_names mac).getD "") ++ " (" ++ mac ++ ")" else mac)
  constructor
  · rw [route_and_update_emitted]
    exact matched_live_paths_eq_of _ _ mac mfg data hr1 hr2 hr3 hr4 hr5
  · obtain ⟨e2, he2, hp2, ht2, _⟩ := route_and_update_entry _ _ mac mfg data now e0 he0
    exact ⟨e2, he2, hp2, ht2⟩

/-- C1 witness state: same directory as `c1_state` but with the discovery
toggle ON. -/
def c1_on_state : RouterState :=
  ⟨[(737, ["/ble_advertisements/orion_tr/mfgr/737"])], [], [], [],
   ["/ble_advertisements/orion_tr/mfgr/737"], [], [], [], 600, 3000, 1, []⟩

/-- C1 witness: with discovery enabled, a first observation of a matching
MAC is routed to the matched live paths and seeds a cache entry with its
payload and timestamp. -/
theorem c1_witness :
    (process_advertisement c1_on_state "AA:BB:CC:DD:EE:FF" 737 "01".data 0
        "hci0" 5).2
      = matched_live_paths c1_on_state "AA:BB:CC:DD:EE:FF" 737 [1]
    ∧ ∃ e2, alistLookup
        (process_advertisement c1_on_state "AA:BB:CC:DD:EE:FF" 737 "01".data 0
          "hci0" 5).1.discovered_devices
        (mac_to_relay_id "AA:BB:CC:DD:EE:FF") = some e2
      ∧ e2.previous = some [1] ∧ e2.timestamp = 5 :=
  c1_first_observation c1_on_state "AA:BB:CC:DD:EE:FF" 737 "01".data 0 "hci0" 5
    [1] (by decide) (by decide) (by decide) (by decide)

/-- C2 witness state: a cached device (enabled, last payload `[1,2,3]`,
last routed at time 0) with a 600-second repeat interval and one live
manufacturer channel. -/
def c2_state : RouterState :=
  ⟨[(737, ["/ble_advertisements/orion_tr/mfgr/737"])], [], [], [],
   ["/ble_advertisements/orion_tr/mfgr/737"], [],
   [("aabbccddeeff", ⟨true, some [1, 2, 3], 0, 0⟩)], [], 600, 3000, 1, []⟩

/-- C2 witness: with `repeatInterval = 600` and an unchanged payload routed
at `t = 0`, the same payload is suppressed at `t = 599` (state untouched,
nothing emitted) and routed at `t = 600` (boundary inclusive), updating the
cache entry to the new route time. -/
theorem c2_witness :
    suppress_repeat 600 ⟨true, some [1, 2, 3], 0, 0⟩ [1, 2, 3] 599 = true
    ∧ process_advertisement c2_state "AA:BB:CC:DD:EE:FF" 737 "010203".data 0
        "hci0" 599 = (c2_state, [])
    ∧ suppress_repeat 600 ⟨true, some [1, 2, 3], 0, 0⟩ [1, 2, 3] 600 = false
    ∧ (process_advertisement c2_state "AA:BB:CC:DD:EE:FF" 737 "010203".data 0
        "hci0" 600).2
      = matched_live_paths c2_state "AA:BB:CC:DD:EE:FF" 737 [1, 2, 3]
    ∧ ∃ e2, alistLookup
        (process_advertisement c2_state "AA:BB:CC:DD:EE:FF" 737 "010203".data 0
          "hci0" 600).1.discovered_devices
        (mac_to_relay_id "AA:BB:CC:DD:EE:FF") = some e2
      ∧ e2.previous = some [1, 2, 3] ∧ e2.timestamp = 600 := by
  have h599 := c2_dedup_policy c2_state "AA:BB:CC:DD:EE:FF" 737 "010203".data 0
    "hci0" 599 [1, 2, 3] ⟨true, some [1, 2, 3], 0, 0⟩ (by decide) (by decide)
    (by decide) (by decide) (by decide) (by decide)
  have h600 := c2_dedup_policy c2_state "AA:BB:CC:DD:EE:FF" 737 "010203".data 0
    "hci0" 600 [1, 2, 3] ⟨true, some [1, 2, 3], 0, 0⟩ (by decide) (by decide)
    (by decide) (by decide) (by decide) (by decide)
  refine ⟨by decide, h599.2.2.1 (by decide), by decide, ?_, ?_⟩
  · exact (h600.2.2.2 (by decide)).1
  · obtain ⟨e2, he2, hp, ht, _⟩ := (h600.2.2.2 (by decide)).2
    exact ⟨e2, he2, hp, ht⟩

/-- The interface-marker step touches only `current_interface`. -/
theorem apply_hci_fields (st : ParserState) (l : List Char) :
    (apply_hci st l).current_mac = st.current_mac
    ∧ (apply_hci st l).current_name = st.current_name
    ∧ (apply_hci st l).current_mfg_id = st.current_mfg_id
    ∧ (apply_hci st l).current_rssi = st.current_rssi := by
  unfold apply_hci
  cases h : findHci l <;> simp [h]

/-- C4 is false as stated: completing a record via a payload-data line
("Data: 0102", with MAC `AA:BB:CC:DD:EE:FF`, name `Tank1`, mfg 737, RSSI
-60 and interface `hci0` pending) emits the assembled event but leaves
`current_name` set to `Tank1` (deviceName is NOT cleared) and resets
`current_interface` to `none` (the interface does NOT persist), the exact
opposite of the claimed completion effect. -/
theorem c4_counterexample :
    parse_btmon_line
        ⟨some "AA:BB:CC:DD:EE:FF", some "Tank1", some 737, some (-60),
         some "hci0"⟩ "Data: 0102"
      = (⟨none, some "Tank1", none, none, none⟩,
         some ⟨"AA:BB:CC:DD:EE:FF", 737, "0102".data, -60, "hci0"⟩)
    ∧ (parse_btmon_line
        ⟨some "AA:BB:CC:DD:EE:FF", some "Tank1", some 737, some (-60),
         some "hci0"⟩ "Data: 0102").1.current_name = some "Tank1"
    ∧ (parse_btmon_line
        ⟨some "AA:BB:CC:DD:EE:FF", some "Tank1", some 737, some (-60),
         some "hci0"⟩ "Data: 0102").1.current_interface = none := by
  refine ⟨?_, by decide, by decide⟩
  decide

/-- C4 (amended): whenever a payload-data line completes a record, the
parser emits the assembled event and clears `current_mac`,
`current_mfg_id`, `current_rssi` and `current_interface`; `current_name`
is the one partial field that persists unchanged into the next record
(it is reset only by the next address-marker line). -/
theorem c4_completion_clears (st : ParserState) (l : List Char)
    (hex : List Char)
    (ha : findAddress l = none) (hn : findName l = none)
    (hr : findRssi l = none) (hc : findCompany l = none)
    (hd : findData l = some hex)
    (hmac : mac_truthy st.current_mac = true)
    (hmfg : st.current_mfg_id.isSome = true) :
    parse_btmon_chars st l
      = (⟨none, st.current_name, none, none, none⟩,
         some ⟨st.current_mac.getD "", st.current_mfg_id.getD 0, hex,
               st.current_rssi.getD 0,
               (apply_hci st l).current_interface.getD "hci0"⟩) := by
  obtain ⟨f1, f2, f3, f4⟩ := apply_hci_fields st l
  simp only [parse_btmon_chars, ha, hn, parse_rest, hr, hc, f1, f2, f3, f4,
    hmac, hmfg, Bool.and_self, if_true, hd]

/-- C4 witness: a concrete completion — the four fields are cleared, the
name persists, and the event carries the pending fields. -/
theorem c4_witness :
    parse_btmon_chars
        ⟨some "EF:C1:11:9D:A3:91", some "SmartShunt", some 737, some (-42),
         some "hci1"⟩ "Data: 10028089".data
      = (⟨none, some "SmartShunt", none, none, none⟩,
         some ⟨"EF:C1:11:9D:A3:91", 737, "10028089".data, -42, "hci1"⟩) := by
  have h := c4_completion_clears
    ⟨some "EF:C1:11:9D:A3:91", some "SmartShunt", some 737, some (-42),
     some "hci1"⟩ "Data: 10028089".data "10028089".data
    (by decide) (by decide) (by decide) (by decide) (by decide) (by decide)
    (by decide)
  rw [h]
  decide

/-- C8: the parser step is a total function; a line matching none of the
recognized shapes (no interface, address, name, RSSI, company or data
marker) leaves the parser state unchanged and emits nothing; and a
payload-data line whose hex fails to decode (`bytes.fromhex` raising on an
odd-length group) makes `process_advertisement` return with no emission and
no state change — the record is never completed into a routed event. -/
theorem c8_unrecognized_noop :
    (∀ (st : ParserState) (l : List Char),
       findHci l = none → findAddress l = none → findName l = none →
       findRssi l = none → findCompany l = none → findData l = none →
       parse_btmon_chars st l = (st, none))
    ∧ (∀ (st : RouterState) (mac : String) (mfg : Nat) (hex : List Char)
         (rssi : Int) (iface : String) (now : Int),
       hexDecode hex = none →
       process_advertisement st mac mfg hex rssi iface now = (st, [])) := by
  constructor
  · intro st l h0 ha hn hr hc hd
    have hst1 : apply_hci st l = st := by
      unfold apply_hci
      rw [h0]
    simp only [parse_btmon_chars, hst1, ha, hn, parse_rest, hr, hc, hd]
    by_cases hg : (mac_truthy st.current_mac && st.current_mfg_id.isSome) = true
    · simp [hg, hd]
    · rw [Bool.not_eq_true] at hg
      simp [hg]
  · intro st mac mfg hex rssi iface now hdec
    simp only [process_advertisement, hdec]

/-- C8 witness: a garbage line is a no-op from a nonempty parser state, and
an odd-length hex group (`"010"`, as captured by the data regex) is
discarded by `process_advertisement` without touching the state. -/
theorem c8_witness :
    parse_btmon_chars ⟨some "AA:BB:CC:DD:EE:FF", none, some 737, none, none⟩
        "> HCI Event: LE Meta Event (0x3e) plen 43".data
      = (⟨some "AA:BB:CC:DD:EE:FF", none, some 737, none, none⟩, none)
    ∧ process_advertisement c1_on_state "AA:BB:CC:DD:EE:FF" 737 "010".data 0
        "hci0" 5 = (c1_on_state, []) := by
  have h := c8_unrecognized_noop
  exact ⟨h.1 ⟨some "AA:BB:CC:DD:EE:FF", none, some 737, none, none⟩
      "> HCI Event: LE Meta Event (0x3e) plen 43".data
      (by decide) (by decide) (by decide) (by decide) (by decide) (by decide),
    h.2 c1_on_state "AA:BB:CC:DD:EE:FF" 737 "010".data 0 "hci0" 5 (by decide)⟩

/-- The missing-emitter log accumulates exactly this call's warnings, and a
path is warned about precisely when it is MAC-registered for the event, has
no live emitter, and was never warned about before. -/
theorem log_missing_spec (emitters : List String) :
    ∀ (ps logged : List String),
      (log_missing logged emitters ps).1
        = logged ++ (log_missing logged emitters ps).2
      ∧ ∀ p, p ∈ (log_missing logged emitters ps).2
          ↔ (p ∈ ps ∧ p ∉ emitters ∧ p ∉ logged) := by
  intro ps
  induction ps with
  | nil =>
    intro logged
    simp [log_missing]
  | cons q rest ih =>
    intro logged
    by_cases hqe : mem_str q emitters = true
    · simp only [log_missing, hqe, if_true]
      obtain ⟨ih1, ih2⟩ := ih logged
      refine ⟨ih1, fun p => ?_⟩
      rw [ih2 p]
      have hq := (mem_str_iff q emitters).mp hqe
      constructor
      · rintro ⟨hp, hpe, hpl⟩
        exact ⟨List.mem_cons_of_mem _ hp, hpe, hpl⟩
      · rintro ⟨hp, hpe, hpl⟩
        rcases List.mem_cons.mp hp with rfl | hp2
        · exact absurd hq hpe
        · exact ⟨hp2, hpe, hpl⟩
    · by_cases hql : mem_str q logged = true
      · simp only [log_missing, hqe, Bool.false_eq_true, if_false, hql, if_true]
        obtain ⟨ih1, ih2⟩ := ih logged
        refine ⟨ih1, fun p => ?_⟩
        rw [ih2 p]
        have hq := (mem_str_iff q logged).mp hql
        constructor
        · rintro ⟨hp, hpe, hpl⟩
          exact ⟨List.mem_cons_of_mem _ hp, hpe, hpl⟩
        · rintro ⟨hp, hpe, hpl⟩
          rcases List.mem_cons.mp hp with rfl | hp2
          · exact absurd hq hpl
          · exact ⟨hp2, hpe, hpl⟩
      · simp only [log_missing, hqe, Bool.false_eq_true, if_false, hql]
        obtain ⟨ih1, ih2⟩ := ih (logged ++ [q])
        have hqe2 : q ∉ emitters := fun hc => hqe ((mem_str_iff q emitters).mpr hc)
        have hql2 : q ∉ logged := fun hc => hql ((mem_str_iff q logged).mpr hc)
        constructor
        · rw [ih1]
          simp
        · intro p
          simp only [List.mem_cons]
          constructor
          · rintro (rfl | hp)
            · exact ⟨Or.inl rfl, hqe2, hql2⟩
            · obtain ⟨hp1, hp2, hp3⟩ := (ih2 p).mp hp
              refine ⟨Or.inr hp1, hp2, fun hc => hp3 ?_⟩
              simp [hc]
          · rintro ⟨rfl | hp, hpe, hpl⟩
            · exact Or.inl rfl
            · by_cases hpq : p = q
              · exact Or.inl hpq
              · refine Or.inr ((ih2 p).mpr ⟨hp, hpe, ?_⟩)
                simp [hpl, hpq]

/-- All registration paths matching an advertisement, in the dispatcher's
category order (manufacturer-only, exact product, product range, MAC),
before the live-emitter restriction. -/
def matched_paths_all (st : RouterState) (mac : String) (mfg_id : Nat)
    (data : List Nat) : List String :=
  let product_id := extract_product_id data
  ((alistLookup st.mfg_registrations mfg_id).getD [])
  ++ (match product_id with
      | some pid =>
        ((alistLookup st.pid_registrations (mfg_id, pid)).getD [])
        ++ (st.pid_range_registrations.filter
              (fun kv => decide (kv.1.1 = mfg_id ∧ kv.1.2.1 ≤ pid ∧ pid ≤ kv.1.2.2))).flatMap
            (·.2)
      | none => [])
  ++ ((alistLookup st.mac_registrations mac).getD [])

theorem filter_flatMap_comm (l : List α) (f : α → List β) (p : β → Bool) :
    (l.flatMap f).filter p = l.flatMap (fun x => (f x).filter p) := by
  induction l with
  | nil => rfl
  | cons a rest ih => simp [List.flatMap_cons, List.filter_append, ih]

/-- The dispatcher's emissions are the matched paths restricted to live
emitters. -/
theorem matched_live_paths_eq_filter (st : RouterState) (mac : String)
    (mfg : Nat) (data : List Nat) :
    matched_live_paths st mac mfg data
      = (matched_paths_all st mac mfg data).filter
          (fun p => mem_str p st.emitters) := by
  unfold matched_live_paths matched_paths_all
  cases extract_product_id data with
  | none => simp [List.filter_append]
  | some pid => simp [List.filter_append, filter_flatMap_comm]

/-- Dispatch does not change the registration tables, the emitter table, or
the device-name cache. -/
theorem emit_advertisement_state_fields (st : RouterState) (mac : String)
    (mfg : Nat) (data : List Nat) (now : Int) :
    (emit_advertisement st mac mfg data now).state.mac_registrations
        = st.mac_registrations
    ∧ (emit_advertisement st mac mfg data now).state.emitters = st.emitters
    ∧ (emit_advertisement st mac mfg data now).state.missing_emitter_logged
        = (log_missing st.missing_emitter_logged st.emitters
            ((alistLookup st.mac_registrations mac).getD [])).1 := by
  unfold emit_advertisement
  dsimp only
  split
  · split
    · exact ⟨rfl, rfl, rfl⟩
    · split
      · split
        · exact ⟨rfl, rfl, rfl⟩
        · exact ⟨rfl, rfl, rfl⟩
      · exact ⟨rfl, rfl, rfl⟩
  · exact ⟨rfl, rfl, rfl⟩

/-- C6 counterexample state: one matched manufacturer registration whose
path has no live emitter. -/
def c6_state : RouterState :=
  ⟨[(737, ["/ble_advertisements/orion_tr/mfgr/737"])], [], [], [], [], [],
   [], [], 600, 3000, 1, []⟩

/-- C6 is false as stated: a matched manufacturer-registered path with no
live emitter is silently skipped — no warning is ever logged (the
once-per-channel warning exists only in the MAC-registration branch of
`_emit_advertisement`), and the event is delivered to zero paths. -/
theorem c6_counterexample :
    mem_str "/ble_advertisements/orion_tr/mfgr/737"
        (matched_paths_all c6_state "AA:BB:CC:DD:EE:FF" 737 [1]) = true
    ∧ mem_str "/ble_advertisements/orion_tr/mfgr/737" c6_state.emitters = false
    ∧ (emit_advertisement c6_state "AA:BB:CC:DD:EE:FF" 737 [1] 5).warnings = []
    ∧ (emit_advertisement c6_state "AA:BB:CC:DD:EE:FF" 737 [1] 5).state.missing_emitter_logged = [] := by
  decide

/-- C6 (amended): dispatch delivers to exactly the matched paths that have
live emitters (so the delivered count is the number of matched live paths,
e.g. 2 when one of three channels is missing), the remaining live channels
are unaffected by a missing one; and stale-channel warnings are issued once
per channel (never again on later events) — but only for MAC-registered
matched paths; matched manufacturer/product/range paths with no emitter are
skipped silently. -/
theorem c6_dispatch_resilience (st : RouterState) (mac : String) (mfg : Nat)
    (data : List Nat) (now : Int) :
    (emit_advertisement st mac mfg data now).emitted
      = (matched_paths_all st mac mfg data).filter
          (fun p => mem_str p st.emitters)
    ∧ (∀ p, p ∈ (emit_advertisement st mac mfg data now).warnings
        ↔ (p ∈ (alistLookup st.mac_registrations mac).getD []
            ∧ p ∉ st.emitters ∧ p ∉ st.missing_emitter_logged))
    ∧ (emit_advertisement st mac mfg data now).state.missing_emitter_logged
        = st.missing_emitter_logged
          ++ (emit_advertisement st mac mfg data now).warnings
    ∧ (∀ (p : String) (mac2 : String) (mfg2 : Nat) (data2 : List Nat)
         (now2 : Int),
        p ∈ (emit_advertisement st mac mfg data now).warnings →
        p ∉ (emit_advertisement
              (emit_advertisement st mac mfg data now).state
              mac2 mfg2 data2 now2).warnings) := by
  have hw : (emit_advertisement st mac mfg data now).warnings
      = (log_missing st.missing_emitter_logged st.emitters
          ((alistLookup st.mac_registrations mac).getD [])).2 := rfl
  have he : (emit_advertisement st mac mfg data now).emitted
      = matched_live_paths st mac mfg data := rfl
  obtain ⟨hs1, hs2, hs3⟩ := emit_advertisement_state_fields st mac mfg data now
  obtain ⟨hl1, hl2⟩ := log_missing_spec st.emitters
    ((alistLookup st.mac_registrations mac).getD []) st.missing_emitter_logged
  refine ⟨?_, ?_, ?_, ?_⟩
  · rw [he, matched_live_paths_eq_filter]
  · intro p
    rw [hw]
    exact hl2 p
  · rw [hs3, hw]
    exact hl1
  · intro p mac2 mfg2 data2 now2 hp hp2
    set st2 := (emit_advertisement st mac mfg data now).state with hst2
    have hw2 : (emit_advertisement st2 mac2 mfg2 data2 now2).warnings
        = (log_missing st2.missing_emitter_logged st2.emitters
            ((alistLookup st2.mac_registrations mac2).getD [])).2 := rfl
    rw [hw2] at hp2
    obtain ⟨_, hl2b⟩ := log_missing_spec st2.emitters
      ((alistLookup st2.mac_registrations mac2).getD [])
      st2.missing_emitter_logged
    obtain ⟨_, _, hnl⟩ := (hl2b p).mp hp2
    apply hnl
    rw [hst2, hs3, hl1]
    rw [hw] at hp
    exact List.mem_append_right _ hp

/-- C6 witness state: three MAC registrations for one device, of which two
have live emitters and one was torn down. -/
def c6w_state : RouterState :=
  ⟨[], [("AA:BB:CC:DD:EE:FF",
         ["/ble_advertisements/s1/addr/AABBCCDDEEFF",
          "/ble_advertisements/s2/addr/AABBCCDDEEFF",
          "/ble_advertisements/s3/addr/AABBCCDDEEFF"])], [], [],
   ["/ble_advertisements/s1/addr/AABBCCDDEEFF",
    "/ble_advertisements/s2/addr/AABBCCDDEEFF"], [], [], [], 600, 3000, 1, []⟩

/-- C6 witness: with one of three matching channels missing, the other two
still receive the event (delivered count 2), the missing channel is warned
about on the first event, and not warned about again on the next event. -/
theorem c6_witness :
    (emit_advertisement c6w_state "AA:BB:CC:DD:EE:FF" 737 [1] 5).emitted
      = ["/ble_advertisements/s1/addr/AABBCCDDEEFF",
         "/ble_advertisements/s2/addr/AABBCCDDEEFF"]
    ∧ (emit_advertisement c6w_state "AA:BB:CC:DD:EE:FF" 737 [1] 5).warnings
      = ["/ble_advertisements/s3/addr/AABBCCDDEEFF"]
    ∧ "/ble_advertisements/s3/addr/AABBCCDDEEFF" ∉
        (emit_advertisement
          (emit_advertisement c6w_state "AA:BB:CC:DD:EE:FF" 737 [1] 5).state
          "AA:BB:CC:DD:EE:FF" 737 [1] 6).warnings := by
  have h := c6_dispatch_resilience c6w_state "AA:BB:CC:DD:EE:FF" 737 [1] 5
  refine ⟨by decide, by decide, ?_⟩
  exact h.2.2.2 "/ble_advertisements/s3/addr/AABBCCDDEEFF" "AA:BB:CC:DD:EE:FF"
    737 [1] 6 (by decide)

/-- The registration directory content: the four filter dictionaries. -/
structure RegDirectory where
  mfg : List (Nat × List String)
  mac : List (String × List String)
  pid : List ((Nat × Nat) × List String)
  pid_range : List ((Nat × Nat × Nat) × List String)
deriving DecidableEq

/-- Snapshot of a router state's registration directory. -/
def regs_of (st : RouterState) : RegDirectory :=
  ⟨st.mfg_registrations, st.mac_registrations, st.pid_registrations,
   st.pid_range_registrations⟩

/-- Removing a disappeared service's paths from a dictionary none of whose
paths mention the service leaves the dictionary unchanged. -/
theorem remove_from_reg_map_id [DecidableEq κ] (nm : List Char)
    (m : List (κ × List String))
    (h : ∀ kv, kv ∈ m → ∀ p, p ∈ kv.2 → containsChars nm p.data = false) :
    remove_from_reg_map nm m = m := by
  induction m with
  | nil => rfl
  | cons kv rest ih =>
    have hkv : remove_paths_entry nm kv.2 = some kv.2 := by
      unfold remove_paths_entry
      have : kv.2.any (fun p => containsChars nm p.data) = false := by
        rw [List.any_eq_false]
        intro p hp
        simp [h kv (List.mem_cons_self kv rest) p hp]
      simp [this]
    have hrest : remove_from_reg_map nm rest = rest :=
      ih (fun kv2 hkv2 => h kv2 (List.mem_cons_of_mem _ hkv2))
    unfold remove_from_reg_map at hrest ⊢
    rw [List.filterMap_cons, hkv]
    show (kv.1, kv.2) :: List.filterMap _ rest = kv :: rest
    rw [hrest]

/-- C5: the dedup cache is cleared on every mutation of the registration
directory.  For a discovery reply, any change to the directory implies the
cache was cleared unconditionally in the same branch.  For removal of a
disappeared service, the clear is guarded by "at least one emitter path
mentions the service"; under the emitter-table invariant that every
registered path has a live emitter (which `_update_emitters` establishes
after every directory parse), any directory change again implies the cache
is cleared. -/
theorem c5_mutation_clears_cache :
    (∀ (st : RouterState) (xml : String) (visited : List String),
        regs_of (on_introspect_reply st xml visited) ≠ regs_of st →
        (on_introspect_reply st xml visited).discovered_devices = [])
    ∧ (∀ (st : RouterState) (nm : String),
        (∀ p, p ∈ active_paths st → p ∈ st.emitters) →
        regs_of (remove_service_registrations st nm) ≠ regs_of st →
        (remove_service_registrations st nm).discovered_devices = []) := by
  constructor
  · intro st xml visited hch
    unfold on_introspect_reply at hch ⊢
    by_cases hxml : containsChars "ble_advertisements".data xml.data = true
    · simp only [hxml, if_true]
    · simp only [hxml, Bool.false_eq_true, if_false] at hch ⊢
      exact absurd rfl hch
  · intro st nm hinv hch
    unfold remove_service_registrations at hch ⊢
    dsimp only at hch ⊢
    by_cases hrem : (List.filter (fun p => containsChars nm.data p.data)
        st.emitters).isEmpty = true
    · exfalso
      have hnone : ∀ q, q ∈ st.emitters → containsChars nm.data q.data = false := by
        intro q hq
        rw [List.isEmpty_iff, List.filter_eq_nil_iff] at hrem
        have := hrem q hq
        simpa using this
      have hnoreg : ∀ p, p ∈ active_paths st → containsChars nm.data p.data = false :=
        fun p hp => hnone p (hinv p hp)
      have hid1 : remove_from_reg_map nm.data st.mfg_registrations
          = st.mfg_registrations := by
        refine remove_from_reg_map_id _ _ (fun kv hkv p hp => hnoreg p ?_)
        unfold active_paths
        refine List.mem_append_left _ (List.mem_append_left _ ?_)
        refine List.mem_append_left _ ?_
        exact List.mem_flatMap.mpr ⟨kv, hkv, hp⟩
      have hid2 : remove_from_reg_map nm.data st.mac_registrations
          = st.mac_registrations := by
        refine remove_from_reg_map_id _ _ (fun kv hkv p hp => hnoreg p ?_)
        unfold active_paths
        refine List.mem_append_left _ (List.mem_append_left _ ?_)
        refine List.mem_append_right _ ?_
        exact List.mem_flatMap.mpr ⟨kv, hkv, hp⟩
      have hid3 : remove_from_reg_map nm.data st.pid_registrations
          = st.pid_registrations := by
        refine remove_from_reg_map_id _ _ (fun kv hkv p hp => hnoreg p ?_)
        unfold active_paths
        refine List.mem_append_left _ (List.mem_append_right _ ?_)
        exact List.mem_flatMap.mpr ⟨kv, hkv, hp⟩
      have hid4 : remove_from_reg_map nm.data st.pid_range_registrations
          = st.pid_range_registrations := by
        refine remove_from_reg_map_id _ _ (fun kv hkv p hp => hnoreg p ?_)
        unfold active_paths
        refine List.mem_append_right _ ?_
        exact List.mem_flatMap.mpr ⟨kv, hkv, hp⟩
      rw [hid1, hid2, hid3, hid4] at hch
      simp only [hrem, if_true] at hch
      exact hch rfl
    · simp only [hrem, Bool.false_eq_true, if_false]

/-- C5 witness state for the discovery side: a populated dedup cache and no
registrations yet. -/
def c5a_state : RouterState :=
  ⟨[], [], [], [], [], [], [("aabbccddeeff", ⟨true, some [1], 0, 0⟩)], [],
   600, 3000, 1, []⟩

/-- C5 witness state for the removal side: one registration with its live
emitter and a populated dedup cache. -/
def c5b_state : RouterState :=
  ⟨[(737, ["/ble_advertisements/orion_tr/mfgr/737"])], [], [], [],
   ["/ble_advertisements/orion_tr/mfgr/737"], [],
   [("aabbccddeeff", ⟨true, some [1], 0, 0⟩)], [], 600, 3000, 1, []⟩

/-- C5 witness: discovering a new registration clears the populated cache,
and removing a disappeared service's registration (under the
every-path-has-an-emitter invariant) clears it too. -/
theorem c5_witness :
    (on_introspect_reply c5a_state "node ble_advertisements"
        ["/ble_advertisements/orion_tr/mfgr/737"]).discovered_devices = []
    ∧ (remove_service_registrations c5b_state "orion_tr").discovered_devices
        = [] := by
  have h := c5_mutation_clears_cache
  refine ⟨h.1 c5a_state "node ble_advertisements"
      ["/ble_advertisements/orion_tr/mfgr/737"] (by decide),
    h.2 c5b_state "orion_tr" (by decide) (by decide)⟩

set_option maxRecDepth 4000

/-- Distinct cache keys for the C10 states: `k`, `ka`, `kaa`, ... -/
def c10_key (i : Nat) : String :=
  String.mk ('k' :: List.replicate i 'a')

/-- A dedup cache already holding 1001 entries. -/
def c10_cache : List (String × CacheEntry) :=
  (List.range 1001).map (fun i => (c10_key i, ⟨true, none, 0, 0⟩))

theorem c10_key_data (i : Nat) : (c10_key i).data = 'k' :: List.replicate i 'a' :=
  rfl

theorem c10_key_ne (i : Nat) : ¬(c10_key i = "aabbccddeeff") := by
  intro h
  have hd : 'k' :: List.replicate i 'a' = "aabbccddeeff".data := by
    rw [← c10_key_data, h]
  rw [show ("aabbccddeeff" : String).data
      = 'a' :: "abbccddeeff".data from rfl] at hd
  injection hd with hh _
  exact absurd hh (by decide)

theorem c10_cache_not_contains :
    alistContains c10_cache "aabbccddeeff" = false := by
  rw [alistContains_eq_false_iff]
  intro v hv
  rw [c10_cache, List.mem_map] at hv
  obtain ⟨i, _, hei⟩ := hv
  exact c10_key_ne i (congrArg Prod.fst hei)

theorem c10_cache_length : c10_cache.length = 1001 := by
  simp [c10_cache]

theorem c10_cache_keys_nodup : (c10_cache.map Prod.fst).Nodup := by
  rw [c10_cache, List.map_map]
  have hinj : Function.Injective (Prod.fst ∘ fun i => (c10_key i, (⟨true, none, 0, 0⟩ : CacheEntry))) := by
    intro i j hij
    have hd : 'k' :: List.replicate i 'a' = 'k' :: List.replicate j 'a' := by
      rw [← c10_key_data, ← c10_key_data]
      exact congrArg String.data hij
    have hlen := congrArg List.length hd
    simpa using hlen
  exact (List.nodup_range 1001).map hinj

/-- C10 counterexample state: the 1001-entry cache, plus a per-device
switch for `aabbccddeeff` that already exists on D-Bus (its `State` path is
present) but has no cache entry — the situation after any cache
invalidation. -/
def c10_state : RouterState :=
  ⟨[], [], [], [], [], [], c10_cache, [], 600, 3000, 1, [("aabbccddeeff", 1)]⟩

/-- C10 is false as stated: the cache-seeding branch for a device whose
switch already exists on D-Bus inserts without the 1000-entry safety valve,
so a creation finding 1001 entries yields a 1002-entry cache, where the
claim bounds every post-creation cache at 1001 entries. -/
theorem c10_counterexample :
    c10_state.discovered_devices.length = 1001
    ∧ (c10_state.discovered_devices.map Prod.fst).Nodup
    ∧ alistContains c10_state.discovered_devices
        (mac_to_relay_id "AA:BB:CC:DD:EE:FF") = false
    ∧ (add_discovered_device c10_state "AA:BB:CC:DD:EE:FF"
        "dev").discovered_devices.length = 1002 := by
  have hrelay : mac_to_relay_id "AA:BB:CC:DD:EE:FF" = "aabbccddeeff" := by
    decide
  have hdd : c10_state.discovered_devices = c10_cache := rfl
  refine ⟨c10_cache_length, c10_cache_keys_nodup, ?_, ?_⟩
  · rw [hdd, hrelay]
    exact c10_cache_not_contains
  · have hdbus : alistLookup c10_state.dbus_switch_states "aabbccddeeff"
        = some 1 := by decide
    have hstep : add_discovered_device c10_state "AA:BB:CC:DD:EE:FF" "dev"
        = { c10_state with discovered_devices := alistInsert c10_cache "aabbccddeeff" ⟨decide ((1 : Int) = 1), none, 0, 0⟩ } := by
      unfold add_discovered_device
      rw [hrelay]
      simp only [hdbus, c10_cache_not_contains, hdd, Bool.false_eq_true,
        if_false, if_neg (by decide : ¬(c10_state.discovery_state = 0))]
    rw [hstep]
    show (alistInsert c10_cache "aabbccddeeff" _).length = 1002
    rw [alistInsert_length_of_not_contains _ _ _ c10_cache_not_contains,
      c10_cache_length]

/-- C10 (amended): on the fresh-creation path — discovery enabled, device
not yet cached, and no pre-existing D-Bus switch — the safety valve holds:
if the cache already exceeds 1000 entries it is cleared before inserting
(leaving exactly the one new entry), and the resulting cache never exceeds
1001 entries.  The cache-seeding path for a switch that already exists on
D-Bus bypasses the valve, so the bound does not hold for every
device-creation operation. -/
theorem c10_safety_valve (st : RouterState) (mac nm : String)
    (hdisc : ¬(st.discovery_state = 0))
    (hmiss : alistContains st.discovered_devices (mac_to_relay_id mac) = false)
    (hdbus : alistLookup st.dbus_switch_states (mac_to_relay_id mac) = none) :
    (add_discovered_device st mac nm).discovered_devices.length ≤ 1001
    ∧ (st.discovered_devices.length > 1000 →
        (add_discovered_device st mac nm).discovered_devices
          = [(mac_to_relay_id mac, ⟨true, none, 0, 0⟩)]) := by
  have hstep : add_discovered_device st mac nm
      = { st with
          dbus_switch_states :=
            alistInsert st.dbus_switch_states (mac_to_relay_id mac) 1,
          discovered_devices :=
            alistInsert
              (if st.discovered_devices.length > 1000 then []
               else st.discovered_devices)
              (mac_to_relay_id mac) ⟨true, none, 0, 0⟩ } := by
    unfold add_discovered_device
    simp only [hmiss, hdbus, Bool.false_eq_true, if_false, if_neg hdisc]
  rw [hstep]
  by_cases hbig : st.discovered_devices.length > 1000
  · simp only [hbig, if_true]
    constructor
    · show (alistInsert [] _ _).length ≤ 1001
      simp [alistInsert, alistContains]
    · intro _
      show alistInsert [] _ _ = _
      simp [alistInsert, alistContains]
  · simp only [hbig, if_false]
    refine ⟨?_, fun hc => hc.elim⟩
    show (alistInsert st.discovered_devices _ _).length ≤ 1001
    rw [alistInsert_length_of_not_contains _ _ _ hmiss]
    omega

/-- C10 witness state: the 1001-entry cache with no pre-existing D-Bus
switch for the new device, so creation takes the safety-valve path. -/
def c10v_state : RouterState :=
  ⟨[], [], [], [], [], [], c10_cache, [], 600, 3000, 1, []⟩

/-- C10 witness: creating a fresh device while the cache holds 1001 entries
clears it first, leaving exactly the one new (enabled) entry, within the
1001 bound. -/
theorem c10_witness :
    (add_discovered_device c10v_state "AA:BB:CC:DD:EE:FF"
        "dev").discovered_devices.length ≤ 1001
    ∧ (add_discovered_device c10v_state "AA:BB:CC:DD:EE:FF"
        "dev").discovered_devices
      = [(mac_to_relay_id "AA:BB:CC:DD:EE:FF", ⟨true, none, 0, 0⟩)] := by
  have hrelay : mac_to_relay_id "AA:BB:CC:DD:EE:FF" = "aabbccddeeff" := by
    decide
  have h := c10_safety_valve c10v_state "AA:BB:CC:DD:EE:FF" "dev" (by decide)
    (by rw [hrelay]; exact c10_cache_not_contains) (by rw [hrelay]; decide)
  refine ⟨h.1, h.2 ?_⟩
  show c10_cache.length > 1000
  rw [c10_cache_length]
  omega
